import Mathlib

/-!
Shallow embedding of the Resource-Verifier storage layer
(`server/storage.ts`, class `DatabaseStorage`) and of the Express route
handlers that drive it (`server/routes.ts`), over the drizzle table
definitions of `shared/schema.ts`.

Modelling conventions:
* the relational store is a `State` record of per-table row lists plus
  serial-id counters; one SQL statement is one pure function on `State`;
* `timestamp` columns are `Nat` (milliseconds); the JS `new Date()` of a
  handler is an explicit `now : Nat` argument threaded into the call;
* nullable columns are `Option`; a JSON patch object (`Partial<...>`)
  wraps every insertable field in `Option`, with `none` = key absent;
* `double precision` columns (`lat`, `lng`) carry no arithmetic anywhere
  in this layer, so they are modelled as `Option Int` placeholders;
* JavaScript truthiness tests on optional strings and numbers
  (`if (filters?.search)`, `if (filters?.limit)`) are `truthyStr` /
  `truthyNat`;
* `email.toLowerCase()` is `lowerStr`; SQL `ILIKE '%p%'` is
  `ilikeContains`; SQL `ORDER BY` is the insertion sort `sortBy` with a
  byte-wise comparator (the collation details do not matter to any
  property proved below);
* Postgres array containment `tags @> ARRAY[t]` over a nullable array
  column is exact-string membership in the array, `false` on NULL.
-/

namespace RV

/-- JS truthiness of an optional string: absent and `""` are falsy. -/
def truthyStr : Option String → Bool
  | none => false
  | some s => s != ""

/-- JS truthiness of an optional number: absent and `0` are falsy. -/
def truthyNat : Option Nat → Bool
  | none => false
  | some n => n != 0

/-- Model of `String.prototype.toLowerCase()`. -/
def lowerStr (s : String) : String := ⟨s.data.map Char.toLower⟩

/-- Does `hay` start with `needle`? (helper for substring containment). -/
def startsWith : List Char → List Char → Bool
  | [], _ => true
  | _ :: _, [] => false
  | a :: as, b :: bs => a.val = b.val && startsWith as bs

/-- Does `hay` contain `needle` as a contiguous run? -/
def containsChars : List Char → List Char → Bool
  | [], needle => needle.isEmpty
  | c :: t, needle => startsWith needle (c :: t) || containsChars t needle

/-- Model of SQL `value ILIKE '%pat%'`: case-insensitive unanchored
substring test. -/
def ilikeContains (value pat : String) : Bool :=
  containsChars (lowerStr value).data (lowerStr pat).data

/-- Insert `a` into `l` before the first element not `le`-below it. -/
def insertSorted (le : α → α → Bool) (a : α) : List α → List α
  | [] => [a]
  | b :: l => if le a b then a :: b :: l else b :: insertSorted le a l

/-- Insertion sort; models SQL `ORDER BY`. -/
def sortBy (le : α → α → Bool) (l : List α) : List α :=
  l.foldr (insertSorted le) []

/-- Byte-wise lexicographic comparison of char lists. -/
def charListLe : List Char → List Char → Bool
  | [], _ => true
  | _ :: _, [] => false
  | a :: as, b :: bs =>
    if a.val = b.val then charListLe as bs else decide (a.val < b.val)

/-- Comparator for `ORDER BY name` (ascending). -/
def strLe (a b : String) : Bool := charListLe a.data b.data

/-- SQL `LIMIT` / `OFFSET` applied to an ordered row list.  Drizzle emits
both clauses only when the route passed a truthy value (`if
(filters?.limit) query = query.limit(...)`), and SQL applies OFFSET
before LIMIT. -/
def paginate (lim off : Option Nat) (l : List α) : List α :=
  let l1 := if truthyNat off then l.drop (off.getD 0) else l
  if truthyNat lim then l1.take (lim.getD 0) else l1

/-- Row of the `resources` table (`shared/schema.ts`). -/
structure Resource where
  id : Nat
  name : String
  description : Option String := none
  category : String
  categories : Option (List String) := none
  tags : Option (List String) := none
  status : String := "unverified"
  address : Option String := none
  city : Option String := none
  state : Option String := none
  zip : Option String := none
  lat : Option Int := none
  lng : Option Int := none
  serviceArea : Option String := none
  phone : Option String := none
  email : Option String := none
  website : Option String := none
  services : Option String := none
  hours : Option String := none
  eligibility : Option String := none
  accessInfo : Option String := none
  languages : Option (List String) := none
  internalNotes : Option String := none
  publicNotes : Option String := none
  confidenceScore : Option Int := some 20
  lastVerifiedAt : Option Nat := none
  nextVerifyDueAt : Option Nat := none
  providerId : Option Nat := none
  isFavorite : Bool := false
  notes : Option String := none
  createdAt : Option Nat := none
  updatedAt : Option Nat := none


/-- A `Partial<InsertResource>` patch (`UpdateResourceRequest`, and the
`proposedChanges` map of an update request): every insertable column —
`id`, `createdAt`, `updatedAt` are omitted by `insertResourceSchema` —
wrapped in an outer `Option`, `none` meaning the key is absent. -/
structure ResourcePatch where
  name : Option String := none
  description : Option (Option String) := none
  category : Option String := none
  categories : Option (Option (List String)) := none
  tags : Option (Option (List String)) := none
  status : Option String := none
  address : Option (Option String) := none
  city : Option (Option String) := none
  state : Option (Option String) := none
  zip : Option (Option String) := none
  lat : Option (Option Int) := none
  lng : Option (Option Int) := none
  serviceArea : Option (Option String) := none
  phone : Option (Option String) := none
  email : Option (Option String) := none
  website : Option (Option String) := none
  services : Option (Option String) := none
  hours : Option (Option String) := none
  eligibility : Option (Option String) := none
  accessInfo : Option (Option String) := none
  languages : Option (Option (List String)) := none
  internalNotes : Option (Option String) := none
  publicNotes : Option (Option String) := none
  confidenceScore : Option (Option Int) := none
  lastVerifiedAt : Option (Option Nat) := none
  nextVerifyDueAt : Option (Option Nat) := none
  providerId : Option (Option Nat) := none
  isFavorite : Option Bool := none
  notes : Option (Option String) := none


/-- The empty patch `{}` (a truthy object in JS despite having no keys). -/
def emptyPatch : ResourcePatch := {}

/-- Spread-application of a patch onto a row, as in
`db.update(resources).set({ ...updates })`: present keys overwrite,
absent keys leave the column alone. -/
def applyPatch (r : Resource) (p : ResourcePatch) : Resource :=
  { r with
    name := p.name.getD r.name
    description := p.description.getD r.description
    category := p.category.getD r.category
    categories := p.categories.getD r.categories
    tags := p.tags.getD r.tags
    status := p.status.getD r.status
    address := p.address.getD r.address
    city := p.city.getD r.city
    state := p.state.getD r.state
    zip := p.zip.getD r.zip
    lat := p.lat.getD r.lat
    lng := p.lng.getD r.lng
    serviceArea := p.serviceArea.getD r.serviceArea
    phone := p.phone.getD r.phone
    email := p.email.getD r.email
    website := p.website.getD r.website
    services := p.services.getD r.services
    hours := p.hours.getD r.hours
    eligibility := p.eligibility.getD r.eligibility
    accessInfo := p.accessInfo.getD r.accessInfo
    languages := p.languages.getD r.languages
    internalNotes := p.internalNotes.getD r.internalNotes
    publicNotes := p.publicNotes.getD r.publicNotes
    confidenceScore := p.confidenceScore.getD r.confidenceScore
    lastVerifiedAt := p.lastVerifiedAt.getD r.lastVerifiedAt
    nextVerifyDueAt := p.nextVerifyDueAt.getD r.nextVerifyDueAt
    providerId := p.providerId.getD r.providerId
    isFavorite := p.isFavorite.getD r.isFavorite
    notes := p.notes.getD r.notes }

/-- Emit `[k]` when the patch key is present, `[]` otherwise. -/
def keyIf {A : Type} (o : Option A) (k : String) : List String :=
  if o.isSome then [k] else []

/-- `Object.keys(proposedChanges)`, in schema column order, used only to
build the generated note on the verification event. -/
def patchKeys (p : ResourcePatch) : List String :=
  List.flatten [
    keyIf p.name "name",
    keyIf p.description "description",
    keyIf p.category "category",
    keyIf p.categories "categories",
    keyIf p.tags "tags",
    keyIf p.status "status",
    keyIf p.address "address",
    keyIf p.city "city",
    keyIf p.state "state",
    keyIf p.zip "zip",
    keyIf p.lat "lat",
    keyIf p.lng "lng",
    keyIf p.serviceArea "serviceArea",
    keyIf p.phone "phone",
    keyIf p.email "email",
    keyIf p.website "website",
    keyIf p.services "services",
    keyIf p.hours "hours",
    keyIf p.eligibility "eligibility",
    keyIf p.accessInfo "accessInfo",
    keyIf p.languages "languages",
    keyIf p.internalNotes "internalNotes",
    keyIf p.publicNotes "publicNotes",
    keyIf p.confidenceScore "confidenceScore",
    keyIf p.lastVerifiedAt "lastVerifiedAt",
    keyIf p.nextVerifyDueAt "nextVerifyDueAt",
    keyIf p.providerId "providerId",
    keyIf p.isFavorite "isFavorite",
    keyIf p.notes "notes" ]

/-- Row of the `verification_events` table. -/
structure VerificationEvent where
  id : Nat
  resourceId : Nat
  performedByUserId : Option String := none
  performedByRole : Option String := some "staff"
  method : Option String := none
  result : Option String := none
  fieldsChecked : Option String := none
  notes : Option String := none
  receiptId : Option Nat := none
  createdAt : Option Nat := none

/-- Insert payload for a verification event (`insertVerificationEventSchema`
omits `id` and `createdAt`); `performedByRole` distinguishes an absent key
(`none`, which lets the column default `"staff"` apply) from an explicit
value. -/
structure InsertVerificationEvent where
  resourceId : Nat
  performedByUserId : Option String := none
  performedByRole : Option (Option String) := none
  method : Option String := none
  result : Option String := none
  fieldsChecked : Option String := none
  notes : Option String := none
  receiptId : Option Nat := none

/-- Row of the `providers` table. -/
structure Provider where
  id : Nat
  orgName : String
  contactName : Option String := none
  email : Option String := none
  phone : Option String := none
  website : Option String := none
  verified : Option Bool := some false
  createdAt : Option Nat := none

/-- Insert payload for a provider (`insertProviderSchema` omits `id` and
`createdAt`); `verified` distinguishes an absent key (`none`, letting the
column default `false` apply) from an explicitly supplied value. -/
structure InsertProvider where
  orgName : String
  contactName : Option String := none
  email : Option String := none
  phone : Option String := none
  website : Option String := none
  verified : Option (Option Bool) := none

/-- Row of the `update_requests` table; `proposedChanges` is a nullable
jsonb column whose JSON object payload is modelled as a `ResourcePatch`
(`none` = SQL NULL, which is falsy in the handler, unlike the truthy
empty object). -/
structure UpdateRequest where
  id : Nat
  resourceId : Option Nat := none
  submittedBy : Option String := none
  proposedChanges : Option ResourcePatch := none
  notes : Option String := none
  evidenceLink : Option String := none
  status : Option String := some "new"
  reviewedByUserId : Option String := none
  createdAt : Option Nat := none
  updatedAt : Option Nat := none

/-- Row of the `list_items` join table. -/
structure ListItem where
  id : Nat
  listId : Nat
  resourceId : Nat
  sortOrder : Option Int := some 0
  notes : Option String := none

/-- The relational store: one row list per table the verified claims
touch, plus the serial-id counters. -/
structure State where
  resources : List Resource := []
  verificationEvents : List VerificationEvent := []
  providers : List Provider := []
  updateRequests : List UpdateRequest := []
  listItems : List ListItem := []
  nextResourceId : Nat := 1
  nextEventId : Nat := 1
  nextProviderId : Nat := 1
  nextListItemId : Nat := 1

/-- Error payload of a non-2xx route response. -/
structure ApiError where
  status : Nat
  message : String

/-- Optional admin-side resource filters
(`getResources` / `getResourceCount` parameter). -/
structure ResourceFilters where
  search : Option String := none
  category : Option String := none
  status : Option String := none
  isFavorite : Option Bool := none
  tag : Option String := none
  limit : Option Nat := none
  offset : Option Nat := none

/-- Optional public-side filters (no `status`, no `isFavorite`). -/
structure PublicFilters where
  search : Option String := none
  category : Option String := none
  tag : Option String := none
  limit : Option Nat := none
  offset : Option Nat := none

/-- `DatabaseStorage.buildResourceConditions`: one predicate per provided
(truthy) filter field; `isFavorite` alone is tested with
`!== undefined`. -/
def buildResourceConditions (f : ResourceFilters) : List (Resource → Bool) :=
  (if truthyStr f.search then
    [fun r => ilikeContains r.name (f.search.getD "")] else []) ++
  (if truthyStr f.category then
    [fun r => r.category == f.category.getD ""] else []) ++
  (if truthyStr f.status then
    [fun r => r.status == f.status.getD ""] else []) ++
  (if f.isFavorite.isSome then
    [fun r => r.isFavorite == f.isFavorite.getD false] else []) ++
  (if truthyStr f.tag then
    [fun r => (r.tags.getD []).contains (f.tag.getD "")] else [])

/-- SQL `WHERE and(...)`: a row passes when every condition holds (an
empty condition list means no WHERE clause). -/
def matchesAll {α : Type} (conds : List (α → Bool)) (r : α) : Bool :=
  conds.all (fun c => c r)

/-- Comparator for `orderBy(resources.name)`. -/
def resourceNameLe (a b : Resource) : Bool := strLe a.name b.name

/-- `DatabaseStorage.getResources`. -/
def getResources (s : State) (f : ResourceFilters) : List Resource :=
  paginate f.limit f.offset
    (sortBy resourceNameLe
      (s.resources.filter (matchesAll (buildResourceConditions f))))

/-- `DatabaseStorage.getResourceCount`. -/
def getResourceCount (s : State) (f : ResourceFilters) : Nat :=
  (s.resources.filter (matchesAll (buildResourceConditions f))).length

/-- `DatabaseStorage.getResource`. -/
def getResource (s : State) (id : Nat) : Option Resource :=
  s.resources.find? (fun r => r.id == id)

/-- `DatabaseStorage.updateResource`: `set({ ...updates, updatedAt: new
Date() })` on every row matching the id; returns the updated row. -/
def updateResource (s : State) (id : Nat) (p : ResourcePatch) (now : Nat) :
    State × Option Resource :=
  let upd := fun (r : Resource) =>
    if r.id == id then { applyPatch r p with updatedAt := some now } else r
  ({ s with resources := s.resources.map upd },
   (s.resources.find? (fun r => r.id == id)).map upd)

/-- `DatabaseStorage.deleteResource`: application-level cascade — list
memberships first, then verification events, then the row itself. -/
def deleteResource (s : State) (id : Nat) : State :=
  { s with
    listItems := s.listItems.filter (fun li => !(li.resourceId == id))
    verificationEvents :=
      s.verificationEvents.filter (fun ev => !(ev.resourceId == id))
    resources := s.resources.filter (fun r => !(r.id == id)) }

/-- Comparator for `orderBy(desc(verificationEvents.createdAt))`. -/
def createdDescLe (a b : VerificationEvent) : Bool :=
  b.createdAt.getD 0 ≤ a.createdAt.getD 0

/-- `DatabaseStorage.getVerificationEvents`. -/
def getVerificationEvents (s : State) (resourceId : Nat) :
    List VerificationEvent :=
  sortBy createdDescLe
    (s.verificationEvents.filter (fun ev => ev.resourceId == resourceId))

/-- `DatabaseStorage.createVerificationEvent`. -/
def createVerificationEvent (s : State) (e : InsertVerificationEvent)
    (now : Nat) : State × VerificationEvent :=
  let ev : VerificationEvent :=
    { id := s.nextEventId
      resourceId := e.resourceId
      performedByUserId := e.performedByUserId
      performedByRole := e.performedByRole.getD (some "staff")
      method := e.method
      result := e.result
      fieldsChecked := e.fieldsChecked
      notes := e.notes
      receiptId := e.receiptId
      createdAt := some now }
  ({ s with
      verificationEvents := s.verificationEvents ++ [ev]
      nextEventId := s.nextEventId + 1 }, ev)

/-- The fixed public output column set (`DatabaseStorage.publicColumns`):
everything except `internalNotes`, `isFavorite`, legacy `notes`,
`nextVerifyDueAt`, `providerId`, `createdAt`, `updatedAt`. -/
structure PublicResource where
  id : Nat
  name : String
  description : Option String
  category : String
  categories : Option (List String)
  tags : Option (List String)
  status : String
  address : Option String
  city : Option String
  state : Option String
  zip : Option String
  lat : Option Int
  lng : Option Int
  serviceArea : Option String
  phone : Option String
  email : Option String
  website : Option String
  services : Option String
  hours : Option String
  eligibility : Option String
  accessInfo : Option String
  languages : Option (List String)
  publicNotes : Option String
  confidenceScore : Option Int
  lastVerifiedAt : Option Nat

/-- Projection of a full row onto `publicColumns`. -/
def toPublic (r : Resource) : PublicResource :=
  { id := r.id
    name := r.name
    description := r.description
    category := r.category
    categories := r.categories
    tags := r.tags
    status := r.status
    address := r.address
    city := r.city
    state := r.state
    zip := r.zip
    lat := r.lat
    lng := r.lng
    serviceArea := r.serviceArea
    phone := r.phone
    email := r.email
    website := r.website
    services := r.services
    hours := r.hours
    eligibility := r.eligibility
    accessInfo := r.accessInfo
    languages := r.languages
    publicNotes := r.publicNotes
    confidenceScore := r.confidenceScore
    lastVerifiedAt := r.lastVerifiedAt }

/-- `DatabaseStorage.buildPublicConditions`: the unconditional
`ne(resources.status, "closed")` predicate first, then the same optional
search / category / tag predicates as the admin builder. -/
def buildPublicConditions (f : PublicFilters) : List (Resource → Bool) :=
  [fun r => !(r.status == "closed")] ++
  (if truthyStr f.search then
    [fun r => ilikeContains r.name (f.search.getD "")] else []) ++
  (if truthyStr f.category then
    [fun r => r.category == f.category.getD ""] else []) ++
  (if truthyStr f.tag then
    [fun r => (r.tags.getD []).contains (f.tag.getD "")] else [])

/-- `DatabaseStorage.getPublicResources`. -/
def getPublicResources (s : State) (f : PublicFilters) :
    List PublicResource :=
  (paginate f.limit f.offset
    (sortBy resourceNameLe
      (s.resources.filter (matchesAll (buildPublicConditions f))))).map
    toPublic

/-- `DatabaseStorage.getPublicResourceCount`. -/
def getPublicResourceCount (s : State) (f : PublicFilters) : Nat :=
  (s.resources.filter (matchesAll (buildPublicConditions f))).length

/-- `DatabaseStorage.getPublicResource`: id match plus the unconditional
closed exclusion. -/
def getPublicResource (s : State) (id : Nat) : Option PublicResource :=
  (s.resources.find? (fun r => r.id == id && !(r.status == "closed"))).map
    toPublic

/-- `DatabaseStorage.addResourceToList`: select the (listId, resourceId)
pair first and insert only when nothing came back. -/
def addResourceToList (s : State) (listId resourceId : Nat) : State :=
  let existing := s.listItems.filter
    (fun li => li.listId == listId && li.resourceId == resourceId)
  if existing.length == 0 then
    { s with
      listItems := s.listItems ++
        [{ id := s.nextListItemId, listId := listId,
           resourceId := resourceId }]
      nextListItemId := s.nextListItemId + 1 }
  else s

/-- `DatabaseStorage.getProviderByEmail`: exact match on the email column
(SQL `eq` never matches a NULL email). -/
def getProviderByEmail (s : State) (email : String) : Option Provider :=
  s.providers.find? (fun p => p.email == some email)

/-- `DatabaseStorage.createProvider`. -/
def createProvider (s : State) (inp : InsertProvider) (now : Nat) :
    State × Provider :=
  let p : Provider :=
    { id := s.nextProviderId
      orgName := inp.orgName
      contactName := inp.contactName
      email := inp.email
      phone := inp.phone
      website := inp.website
      verified := inp.verified.getD (some false)
      createdAt := some now }
  ({ s with
      providers := s.providers ++ [p]
      nextProviderId := s.nextProviderId + 1 }, p)

/-- `DatabaseStorage.getUpdateRequest` (the `resourceName` left-join
column is dropped: the handlers below never read it). -/
def getUpdateRequest (s : State) (id : Nat) : Option UpdateRequest :=
  s.updateRequests.find? (fun u => u.id == id)

/-- `DatabaseStorage.updateUpdateRequestStatus`: `set({ status,
reviewedByUserId, updatedAt: new Date() })` on the matching row; both
callers pass `reviewedByUserId = "staff"`. -/
def updateUpdateRequestStatus (s : State) (id : Nat) (status : String)
    (reviewedByUserId : String) (now : Nat) :
    State × Option UpdateRequest :=
  let upd := fun (u : UpdateRequest) =>
    if u.id == id then
      { u with
        status := some status
        reviewedByUserId := some reviewedByUserId
        updatedAt := some now }
    else u
  ({ s with updateRequests := s.updateRequests.map upd },
   (s.updateRequests.find? (fun u => u.id == id)).map upd)

/-- `POST /api/providers/register` handler: case-normalised duplicate
check, then insert with the lowercased email (the zod input is the full
`insertProviderSchema`, so a client-supplied `verified` flag passes
straight through the `{ ...input }` spread). -/
def registerProvider (s : State) (inp : InsertProvider) (now : Nat) :
    State × Except ApiError Provider :=
  let emailLower := lowerStr (inp.email.getD "")
  match getProviderByEmail s emailLower with
  | some _ =>
    (s, .error ⟨409, "A provider with that email already exists"⟩)
  | none =>
    let created := createProvider s { inp with email := some emailLower } now
    (created.1, .ok created.2)

/-- `POST /api/update-requests/:id/accept` handler.  The side effects run
only behind the JS truthiness test `if (request.resourceId &&
proposedChanges)`: a NULL / zero resourceId or a NULL jsonb skips them,
while a present-but-empty `{}` object is truthy and does not. -/
def acceptUpdateRequest (s : State) (id : Nat) (now : Nat) :
    State × Except ApiError (Option UpdateRequest) :=
  match getUpdateRequest s id with
  | none => (s, .error ⟨404, "Update request not found"⟩)
  | some request =>
    if request.status != some "new" && request.status != some "in_review" then
      (s, .error ⟨400, "Request already processed"⟩)
    else
      let s1 :=
        match request.resourceId, request.proposedChanges with
        | some rid, some pc =>
          if rid != 0 then
            let s2 :=
              (updateResource s rid
                { pc with lastVerifiedAt := some (some now) } now).1
            (createVerificationEvent s2
              { resourceId := rid
                performedByRole := some (some "provider")
                method := some "provider_update"
                result := some "verified"
                notes := some ("Provider update accepted. Changes: " ++
                  String.intercalate ", " (patchKeys pc)) } now).1
          else s
        | _, _ => s
      let final := updateUpdateRequestStatus s1 id "accepted" "staff" now
      (final.1, .ok final.2)

/-- `POST /api/update-requests/:id/reject` handler: same guards, no side
effects beyond the status row update. -/
def rejectUpdateRequest (s : State) (id : Nat) (now : Nat) :
    State × Except ApiError (Option UpdateRequest) :=
  match getUpdateRequest s id with
  | none => (s, .error ⟨404, "Update request not found"⟩)
  | some request =>
    if request.status != some "new" && request.status != some "in_review" then
      (s, .error ⟨400, "Request already processed"⟩)
    else
      let final := updateUpdateRequestStatus s id "rejected" "staff" now
      (final.1, .ok final.2)

theorem length_insertSorted {α : Type} (le : α → α → Bool) (a : α)
    (l : List α) : (insertSorted le a l).length = l.length + 1 := by
  induction l with
  | nil => rfl
  | cons b t ih =>
    simp only [insertSorted]
    split
    · simp
    · simp [ih]

theorem length_sortBy {α : Type} (le : α → α → Bool) (l : List α) :
    (sortBy le l).length = l.length := by
  induction l with
  | nil => rfl
  | cons a t ih =>
    show (insertSorted le a (sortBy le t)).length = t.length + 1
    rw [length_insertSorted, ih]

theorem mem_insertSorted {α : Type} (le : α → α → Bool) (a x : α)
    (l : List α) : x ∈ insertSorted le a l ↔ x = a ∨ x ∈ l := by
  induction l with
  | nil => simp [insertSorted]
  | cons b t ih =>
    simp only [insertSorted]
    split
    · simp [List.mem_cons]
    · simp only [List.mem_cons, ih]
      exact or_left_comm

theorem mem_sortBy {α : Type} (le : α → α → Bool) (x : α) (l : List α) :
    x ∈ sortBy le l ↔ x ∈ l := by
  induction l with
  | nil => simp [sortBy]
  | cons a t ih =>
    show x ∈ insertSorted le a (sortBy le t) ↔ _
    rw [mem_insertSorted, ih]
    simp [List.mem_cons]

theorem paginate_none_none {α : Type} (l : List α) :
    paginate none none l = l := rfl

theorem mem_of_mem_paginate {α : Type} (lim off : Option Nat) (x : α)
    (l : List α) (h : x ∈ paginate lim off l) : x ∈ l := by
  unfold paginate at h
  split at h
  · split at h
    · exact List.mem_of_mem_drop (List.mem_of_mem_take h)
    · exact List.mem_of_mem_drop h
  · split at h
    · exact List.mem_of_mem_take h
    · exact h

theorem find?_map_pred {α : Type} (f : α → α) (p : α → Bool) (l : List α)
    (hf : ∀ a, p (f a) = p a) :
    (l.map f).find? p = (l.find? p).map f := by
  induction l with
  | nil => rfl
  | cons a t ih =>
    rw [List.map_cons, List.find?_cons, List.find?_cons, hf]
    cases h : p a with
    | true => simp
    | false => simpa using ih

theorem filter_filter_disjoint {α : Type} (p q : α → Bool) (l : List α)
    (h : ∀ a, p a = true → q a = false) : (l.filter q).filter p = [] := by
  induction l with
  | nil => rfl
  | cons a t ih =>
    cases hq : q a with
    | true =>
      rw [List.filter_cons_of_pos hq, List.filter_cons_of_neg _, ih]
      intro hp
      rw [h a hp] at hq
      exact Bool.false_ne_true hq
    | false => rw [List.filter_cons_of_neg _, ih]; simp [hq]

theorem filter_of_filter_imp {α : Type} (p q : α → Bool) (l : List α)
    (h : ∀ a, p a = true → q a = true) :
    l.filter p = (l.filter q).filter p := by
  induction l with
  | nil => rfl
  | cons a t ih =>
    cases hq : q a with
    | true =>
      rw [List.filter_cons_of_pos hq]
      cases hp : p a with
      | true =>
        rw [List.filter_cons_of_pos hp, List.filter_cons_of_pos hp, ih]
      | false =>
        rw [List.filter_cons_of_neg _, List.filter_cons_of_neg _, ih] <;>
          simp [hp]
    | false =>
      have hp : p a = false := by
        cases hpa : p a with
        | true => rw [h a hpa] at hq; simp at hq
        | false => rfl
      rw [List.filter_cons_of_neg _, ih] <;> simp [hp]

/-- C4: for every resource filter spec, when no limit/offset is supplied
the count operation returns exactly the length of the list operation's
result — both are built from the identical predicate set
(`buildResourceConditions`). -/
theorem c4_count_matches_list_length (s : State) (f : ResourceFilters)
    (hlim : f.limit = none) (hoff : f.offset = none) :
    getResourceCount s f = (getResources s f).length := by
  unfold getResources getResourceCount
  rw [hlim, hoff, paginate_none_none, length_sortBy]

def c4state : State :=
  { resources :=
      [{ id := 1, name := "B Clinic", category := "HEALTH",
         status := "verified" },
       { id := 2, name := "A Pantry", category := "FOOD" },
       { id := 3, name := "C Shelter", category := "HEALTH",
         status := "closed" }] }

theorem c4_witness :
    getResourceCount c4state { category := some "HEALTH" } =
      (getResources c4state { category := some "HEALTH" }).length :=
  c4_count_matches_list_length c4state { category := some "HEALTH" } rfl rfl

/-- C10: a falsy filter field is treated exactly like an absent one —
`limit 0` / `offset 0` impose no pagination, and an empty-string search,
category, status or tag contributes no predicate. -/
theorem c10_falsy_filter_fields_ignored (s : State) (f : ResourceFilters) :
    getResources s { f with limit := some 0 } =
      getResources s { f with limit := none }
    ∧ getResources s { f with offset := some 0 } =
        getResources s { f with offset := none }
    ∧ getResources s { f with search := some "" } =
        getResources s { f with search := none }
    ∧ getResources s { f with category := some "" } =
        getResources s { f with category := none }
    ∧ getResources s { f with status := some "" } =
        getResources s { f with status := none }
    ∧ getResources s { f with tag := some "" } =
        getResources s { f with tag := none } :=
  ⟨rfl, rfl, rfl, rfl, rfl, rfl⟩

/-- C8: deleting a resource removes its list memberships and verification
events before the row itself; afterwards no ListItem or VerificationEvent
with that resourceId is queryable and the resource is gone. -/
theorem c8_delete_removes_orphans (s : State) (id : Nat) :
    (∀ li ∈ (deleteResource s id).listItems, li.resourceId ≠ id)
    ∧ getVerificationEvents (deleteResource s id) id = []
    ∧ getResource (deleteResource s id) id = none := by
  refine ⟨?_, ?_, ?_⟩
  · intro li hli
    have h2 := (List.mem_filter.mp hli).2
    simpa using h2
  · show sortBy createdDescLe
      (((s.verificationEvents.filter
          (fun ev => !(ev.resourceId == id))).filter
        (fun ev => ev.resourceId == id))) = []
    rw [filter_filter_disjoint]
    · rfl
    · intro a hp
      simp [hp]
  · show (s.resources.filter (fun r => !(r.id == id))).find?
      (fun r => r.id == id) = none
    rw [List.find?_eq_none]
    intro x hx
    have h2 := (List.mem_filter.mp hx).2
    simp at h2
    simp [h2]

def c8state : State :=
  { resources := [{ id := 7, name := "Pantry", category := "FOOD" }]
    verificationEvents := [{ id := 1, resourceId := 7, createdAt := some 3 }]
    listItems := [{ id := 1, listId := 2, resourceId := 7 }] }

theorem c8_witness :
    (∀ li ∈ (deleteResource c8state 7).listItems, li.resourceId ≠ 7)
    ∧ getVerificationEvents (deleteResource c8state 7) 7 = []
    ∧ getResource (deleteResource c8state 7) 7 = none :=
  c8_delete_removes_orphans c8state 7

/-- C5: the public surface never exposes a closed resource — every listed
row has a non-closed status, closed rows contribute nothing to the public
count, and the public single-resource get is not-found when every row
with the requested id is closed; the public filter interface has no
status field that could override this. -/
theorem c5_public_never_shows_closed (s : State) (f : PublicFilters)
    (i : Nat) :
    (∀ p ∈ getPublicResources s f, p.status ≠ "closed")
    ∧ getPublicResourceCount s f =
        getPublicResourceCount
          { s with resources :=
              s.resources.filter (fun r => !(r.status == "closed")) } f
    ∧ ((∀ r ∈ s.resources, r.id = i → r.status = "closed") →
        getPublicResource s i = none) := by
  refine ⟨?_, ?_, ?_⟩
  · intro p hp
    obtain ⟨r, hr, hpr⟩ := List.mem_map.mp hp
    have hr2 := (mem_sortBy _ _ _).mp (mem_of_mem_paginate _ _ _ _ hr)
    have hc := (List.mem_filter.mp hr2).2
    simp only [matchesAll, buildPublicConditions, List.all_eq_true] at hc
    have hcl := hc (fun r => !(r.status == "closed")) (by simp)
    simp only [Bool.not_eq_eq_eq_not, Bool.not_true, beq_eq_false_iff_ne,
      ne_eq] at hcl
    rw [← hpr]
    exact hcl
  · show (s.resources.filter
        (matchesAll (buildPublicConditions f))).length =
      ((s.resources.filter (fun r => !(r.status == "closed"))).filter
        (matchesAll (buildPublicConditions f))).length
    rw [← filter_of_filter_imp]
    intro a ha
    simp only [matchesAll, buildPublicConditions, List.all_eq_true] at ha
    exact ha (fun r => !(r.status == "closed")) (by simp)
  · intro h
    show (s.resources.find?
        (fun r => r.id == i && !(r.status == "closed"))).map toPublic = none
    rw [List.find?_eq_none.mpr]
    · rfl
    · intro x hx
      by_cases hid : x.id = i
      · have := h x hx hid
        simp [this]
      · simp [hid]

def c5state : State :=
  { resources :=
      [{ id := 1, name := "Closed Clinic", category := "HEALTH",
         status := "closed" },
       { id := 2, name := "Open Pantry", category := "FOOD",
         status := "verified" }] }

theorem c5_witness :
    (∀ p ∈ getPublicResources c5state {}, p.status ≠ "closed")
    ∧ getPublicResourceCount c5state {} =
        getPublicResourceCount
          { c5state with resources :=
              c5state.resources.filter (fun r => !(r.status == "closed")) } {}
    ∧ ((∀ r ∈ c5state.resources, r.id = 1 → r.status = "closed") →
        getPublicResource c5state 1 = none) :=
  c5_public_never_shows_closed c5state {} 1

/-- C6: the tag filter is exact case-sensitive membership — a resource is
returned by a tag-only filter exactly when the filter string is an
element of its tag array. -/
theorem c6_tag_filter_exact_membership (s : State) (t : String)
    (r : Resource) (ht : t ≠ "") :
    r ∈ getResources s { tag := some t } ↔
      r ∈ s.resources ∧ t ∈ r.tags.getD [] := by
  have htr : truthyStr (some t) = true := by simp [truthyStr, ht]
  have hconds : buildResourceConditions { tag := some t } =
      [fun r => (r.tags.getD []).contains t] := by
    simp [buildResourceConditions, truthyStr, ht]
  unfold getResources
  rw [show ({ tag := some t } : ResourceFilters).limit = none from rfl,
    show ({ tag := some t } : ResourceFilters).offset = none from rfl,
    paginate_none_none, mem_sortBy, List.mem_filter, hconds]
  simp [matchesAll]

def c6res : Resource :=
  { id := 1, name := "Dental Clinic", category := "DENTAL",
    tags := some ["Dental", "Preventive"] }

def c6state : State := { resources := [c6res] }

theorem c6_witness :
    c6res ∈ getResources c6state { tag := some "Dental" } ↔
      c6res ∈ c6state.resources ∧ "Dental" ∈ c6res.tags.getD [] :=
  c6_tag_filter_exact_membership c6state "Dental" c6res (by decide)

/-- C9: list membership is idempotent — a second add of the same
listId/resourceId pair is a no-op, and starting from a state with no row
for the pair, adding twice leaves exactly one matching ListItem row. -/
theorem addResourceToList_of_absent (s : State) (listId resourceId : Nat)
    (h : s.listItems.filter (fun li =>
      li.listId == listId && li.resourceId == resourceId) = []) :
    addResourceToList s listId resourceId =
      { s with
        listItems := s.listItems ++
          [{ id := s.nextListItemId, listId := listId,
             resourceId := resourceId }]
        nextListItemId := s.nextListItemId + 1 } := by
  unfold addResourceToList
  rw [if_pos]
  simp [h]

theorem addResourceToList_of_present (s : State) (listId resourceId : Nat)
    (h : (s.listItems.filter (fun li =>
      li.listId == listId && li.resourceId == resourceId)).length ≠ 0) :
    addResourceToList s listId resourceId = s := by
  unfold addResourceToList
  rw [if_neg]
  simpa using h

theorem c9_add_to_list_idempotent (s : State) (listId resourceId : Nat) :
    addResourceToList (addResourceToList s listId resourceId) listId
        resourceId =
      addResourceToList s listId resourceId
    ∧ ((s.listItems.filter (fun li =>
          li.listId == listId && li.resourceId == resourceId)).length = 0 →
        ((addResourceToList (addResourceToList s listId resourceId) listId
              resourceId).listItems.filter (fun li =>
            li.listId == listId && li.resourceId == resourceId)).length =
          1) := by
  by_cases h0 : (s.listItems.filter (fun li =>
      li.listId == listId && li.resourceId == resourceId)).length = 0
  · have hnil : s.listItems.filter (fun li =>
        li.listId == listId && li.resourceId == resourceId) = [] :=
      List.length_eq_zero.mp h0
    have hadd := addResourceToList_of_absent s listId resourceId hnil
    have hfilter1 : ((addResourceToList s listId
          resourceId).listItems.filter (fun li =>
        li.listId == listId && li.resourceId == resourceId)) =
        [{ id := s.nextListItemId, listId := listId,
           resourceId := resourceId }] := by
      rw [hadd]
      show ((s.listItems ++ [_]).filter _) = _
      rw [List.filter_append, hnil]
      simp
    have hsecond := addResourceToList_of_present
      (addResourceToList s listId resourceId) listId resourceId
      (by rw [hfilter1]; simp)
    refine ⟨hsecond, fun _ => ?_⟩
    rw [hsecond, hfilter1]
    rfl
  · have hadd := addResourceToList_of_present s listId resourceId h0
    constructor
    · rw [hadd, hadd]
    · intro h
      exact absurd h h0

def c9state : State :=
  { resources := [{ id := 4, name := "Shelter", category := "HOUSING" }] }

theorem c9_witness :
    addResourceToList (addResourceToList c9state 1 4) 1 4 =
      addResourceToList c9state 1 4
    ∧ ((c9state.listItems.filter (fun li =>
          li.listId == 1 && li.resourceId == 4)).length = 0 →
        ((addResourceToList (addResourceToList c9state 1 4) 1
              4).listItems.filter (fun li =>
            li.listId == 1 && li.resourceId == 4)).length = 1) :=
  c9_add_to_list_idempotent c9state 1 4

/-- C2: accept and reject both fail with the 400 "Request already
processed" response on a request whose status is terminal, and return the
store unchanged — the guard runs before any mutation. -/
theorem c2_terminal_request_conflict (s : State) (id now : Nat)
    (req : UpdateRequest)
    (hreq : getUpdateRequest s id = some req)
    (hterm : req.status = some "accepted" ∨ req.status = some "rejected") :
    acceptUpdateRequest s id now =
      (s, .error ⟨400, "Request already processed"⟩)
    ∧ rejectUpdateRequest s id now =
      (s, .error ⟨400, "Request already processed"⟩) := by
  have hguard : (req.status != some "new" &&
      req.status != some "in_review") = true := by
    rcases hterm with h | h <;> rw [h] <;> rfl
  constructor
  · simp [acceptUpdateRequest, hreq, hguard]
  · simp [rejectUpdateRequest, hreq, hguard]

def c2req : UpdateRequest := { id := 1, status := some "accepted" }

def c2state : State := { updateRequests := [c2req] }

theorem c2_witness :
    acceptUpdateRequest c2state 1 9 =
      (c2state, .error ⟨400, "Request already processed"⟩)
    ∧ rejectUpdateRequest c2state 1 9 =
      (c2state, .error ⟨400, "Request already processed"⟩) :=
  c2_terminal_request_conflict c2state 1 9 c2req rfl (Or.inl rfl)

theorem updateUpdateRequestStatus_found (s : State) (id : Nat)
    (st rb : String) (now : Nat) (req : UpdateRequest)
    (hreq : getUpdateRequest s id = some req) :
    getUpdateRequest (updateUpdateRequestStatus s id st rb now).1 id =
        some { req with
                status := some st
                reviewedByUserId := some rb
                updatedAt := some now }
    ∧ (updateUpdateRequestStatus s id st rb now).2 =
        some { req with
                status := some st
                reviewedByUserId := some rb
                updatedAt := some now } := by
  unfold getUpdateRequest at hreq
  have hid : (req.id == id) = true := by
    have h := List.find?_some hreq
    simpa using h
  have hf : ∀ u : UpdateRequest,
      (((fun u : UpdateRequest => if u.id == id then
          { u with
            status := some st
            reviewedByUserId := some rb
            updatedAt := some now } else u) u).id == id) = (u.id == id) := by
    intro u
    cases h : u.id == id <;> simp [h]
  have hideq : req.id = id := by simpa using hid
  constructor
  · show ((s.updateRequests.map _).find? _) = _
    rw [find?_map_pred _ _ _ hf, hreq]
    simp [hid]
    intro h
    exact absurd hideq h
  · show ((s.updateRequests.find? _).map _) = _
    rw [hreq]
    simp [hid]
    intro h
    exact absurd hideq h

/-- Registration is the only write path for providers, and it always
stores a lowercased email, so the lowercase-email invariant assumed by
the registration theorem is self-sustaining. -/
theorem registerProvider_preserves_lowercase (s : State)
    (inp : InsertProvider) (now : Nat)
    (hlow : ∀ p ∈ s.providers, ∀ e, p.email = some e → lowerStr e = e)
    (hidem : ∀ e : String, lowerStr (lowerStr e) = lowerStr e) :
    ∀ p ∈ (registerProvider s inp now).1.providers, ∀ e,
      p.email = some e → lowerStr e = e := by
  intro p hp e hpe
  cases hfind : getProviderByEmail s (lowerStr (inp.email.getD "")) with
  | some q =>
    simp only [registerProvider, hfind] at hp
    exact hlow p hp e hpe
  | none =>
    simp only [registerProvider, hfind, createProvider,
      List.mem_append] at hp
    rcases hp with hp | hp
    · exact hlow p hp e hpe
    · have hpe2 : p.email = some (lowerStr (inp.email.getD "")) := by
        rw [show p = { id := s.nextProviderId
                       orgName := inp.orgName
                       contactName := inp.contactName
                       email := some (lowerStr (inp.email.getD ""))
                       phone := inp.phone
                       website := inp.website
                       verified := inp.verified.getD (some false)
                       createdAt := some now } from by simpa using hp]
      have he : e = lowerStr (inp.email.getD "") := by
        rw [hpe2] at hpe
        simpa using hpe.symm
      rw [he]
      exact hidem _

/-- C7 (amended): under the lowercase-email invariant, registering with
an email that matches an existing provider's email up to letter case
fails with a 409 conflict and creates nothing; when no provider matches
the lowercased email, the new provider stores the lowercased email and
its verified flag is false whenever the request did not supply one (the
registration input schema passes a client-supplied flag through). -/
theorem c7_register_email_case_conflict (s : State) (inp : InsertProvider)
    (now : Nat)
    (hlow : ∀ p ∈ s.providers, ∀ e, p.email = some e → lowerStr e = e) :
    ((∃ p ∈ s.providers, ∃ e e2, p.email = some e ∧ inp.email = some e2 ∧
        lowerStr e2 = lowerStr e) →
      registerProvider s inp now =
        (s, .error ⟨409, "A provider with that email already exists"⟩))
    ∧ (getProviderByEmail s (lowerStr (inp.email.getD "")) = none →
        ∃ q, registerProvider s inp now =
            ({ s with
                providers := s.providers ++ [q]
                nextProviderId := s.nextProviderId + 1 }, .ok q)
          ∧ q.email = some (lowerStr (inp.email.getD ""))
          ∧ (inp.verified = none → q.verified = some false)) := by
  constructor
  · rintro ⟨p, hp, e, e2, hpe, hie, hlower⟩
    have he : lowerStr e = e := hlow p hp e hpe
    have hkey : lowerStr (inp.email.getD "") = e := by
      rw [hie]
      show lowerStr e2 = e
      rw [hlower, he]
    have hfind :
        (getProviderByEmail s (lowerStr (inp.email.getD ""))).isSome := by
      rw [hkey]
      unfold getProviderByEmail
      rw [List.find?_isSome]
      exact ⟨p, hp, by simp [hpe]⟩
    obtain ⟨q, hq⟩ := Option.isSome_iff_exists.mp hfind
    simp only [registerProvider, hq]
  · intro hnone
    refine ⟨{ id := s.nextProviderId
              orgName := inp.orgName
              contactName := inp.contactName
              email := some (lowerStr (inp.email.getD ""))
              phone := inp.phone
              website := inp.website
              verified := inp.verified.getD (some false)
              createdAt := some now }, ?_, rfl, ?_⟩
    · simp only [registerProvider, hnone, createProvider]
    · intro hv
      simp [hv]

def c7prov : Provider :=
  { id := 1, orgName := "Food Bank", email := some "food@bank.org" }

def c7state : State := { providers := [c7prov], nextProviderId := 2 }

def c7inp : InsertProvider :=
  { orgName := "Food Bank Again", email := some "Food@Bank.ORG" }

theorem c7_witness :
    registerProvider c7state c7inp 9 =
      (c7state, .error ⟨409, "A provider with that email already exists"⟩) :=
  (c7_register_email_case_conflict c7state c7inp 9
    (by
      intro p hp e he
      have hpp : p = c7prov := by simpa [c7state] using hp
      rw [hpp] at he
      have he2 : e = "food@bank.org" := by
        simpa [c7prov] using he.symm
      rw [he2]
      decide)).1
    ⟨c7prov, by simp [c7state], "food@bank.org", "Food@Bank.ORG", rfl, rfl,
      by decide⟩

/-- C7 counterexample: the claim asserts every successful registration
yields `verified = false`, but the zod input (`insertProviderSchema`)
admits a client-supplied `verified`, which the `{ ...input }` spread
stores as given — here `true`. -/
theorem c7_counterexample :
    (registerProvider {} { orgName := "Org"
                           email := some "a@b.c"
                           verified := some (some true) } 5).2 =
      Except.ok { id := 1
                  orgName := "Org"
                  contactName := none
                  email := some "a@b.c"
                  phone := none
                  website := none
                  verified := some true
                  createdAt := some 5 } := rfl

/-- C3 (amended): the accept side effects are skipped exactly when the
request's resourceId is absent (or zero) or its proposedChanges jsonb is
NULL — then no resource row is touched and no verification event is
created, and the request is still marked accepted; a present-but-empty
proposedChanges object does not skip them (see the counterexample). -/
theorem c3_accept_without_changes (s : State) (id now : Nat)
    (req : UpdateRequest)
    (hreq : getUpdateRequest s id = some req)
    (hopen : req.status = some "new" ∨ req.status = some "in_review")
    (hskip : truthyNat req.resourceId = false ∨ req.proposedChanges = none) :
    (acceptUpdateRequest s id now).1.resources = s.resources
    ∧ (acceptUpdateRequest s id now).1.verificationEvents =
        s.verificationEvents
    ∧ ∃ req2, getUpdateRequest (acceptUpdateRequest s id now).1 id =
        some req2 ∧ req2.status = some "accepted"
        ∧ req2.reviewedByUserId = some "staff" := by
  have hguard : (req.status != some "new" &&
      req.status != some "in_review") = false := by
    rcases hopen with h | h <;> rw [h] <;> rfl
  have hacc : acceptUpdateRequest s id now =
      ((updateUpdateRequestStatus s id "accepted" "staff" now).1,
        .ok (updateUpdateRequestStatus s id "accepted" "staff" now).2) := by
    rcases hskip with h | h
    · cases hrid : req.resourceId with
      | none =>
        simp only [acceptUpdateRequest, hreq, hguard, hrid,
          Bool.false_eq_true, if_false]
      | some rid =>
        rw [hrid] at h
        have h0 : rid = 0 := by simpa [truthyNat] using h
        subst h0
        cases hpc : req.proposedChanges with
        | none =>
          simp only [acceptUpdateRequest, hreq, hguard, hrid, hpc,
            Bool.false_eq_true, if_false]
        | some pc =>
          simp only [acceptUpdateRequest, hreq, hguard, hrid, hpc,
            bne_self_eq_false, Bool.false_eq_true, if_false]
    · cases hrid : req.resourceId with
      | none =>
        simp only [acceptUpdateRequest, hreq, hguard, hrid,
          Bool.false_eq_true, if_false]
      | some rid =>
        simp only [acceptUpdateRequest, hreq, hguard, hrid, h,
          Bool.false_eq_true, if_false]
  rw [hacc]
  obtain ⟨hfound, _⟩ :=
    updateUpdateRequestStatus_found s id "accepted" "staff" now req hreq
  exact ⟨rfl, rfl, ⟨_, hfound, rfl, rfl⟩⟩

def c3res : Resource := { id := 1, name := "Clinic", category := "HEALTH" }

def c3req : UpdateRequest :=
  { id := 1, resourceId := some 1, proposedChanges := some emptyPatch,
    status := some "new" }

def c3state : State :=
  { resources := [c3res], updateRequests := [c3req] }

/-- C3 counterexample: an open request whose proposedChanges is the empty
object `{}` (truthy in JS) against an existing resource — the claim says
the accept skips the resource update and the event append, but the code
stamps the resource's lastVerifiedAt and creates one VerificationEvent. -/
theorem c3_counterexample :
    (acceptUpdateRequest c3state 1 50).1.verificationEvents.length = 1
    ∧ c3state.verificationEvents.length = 0
    ∧ (acceptUpdateRequest c3state 1 50).1.resources.map
        Resource.lastVerifiedAt = [some 50]
    ∧ c3state.resources.map Resource.lastVerifiedAt = [none] :=
  ⟨rfl, rfl, rfl, rfl⟩

def c3wreq : UpdateRequest :=
  { id := 2, resourceId := none, proposedChanges := some emptyPatch,
    status := some "in_review" }

def c3wstate : State := { updateRequests := [c3wreq] }

theorem c3_witness :
    (acceptUpdateRequest c3wstate 2 7).1.resources = c3wstate.resources
    ∧ (acceptUpdateRequest c3wstate 2 7).1.verificationEvents =
        c3wstate.verificationEvents
    ∧ ∃ req2, getUpdateRequest (acceptUpdateRequest c3wstate 2 7).1 2 =
        some req2 ∧ req2.status = some "accepted"
        ∧ req2.reviewedByUserId = some "staff" :=
  c3_accept_without_changes c3wstate 2 7 c3wreq rfl (Or.inr rfl)
    (Or.inl rfl)

/-- C1 (amended): accepting an open update request with a resourceId and
a non-empty proposedChanges map overwrites exactly the resource fields
whose keys appear in the map, stamps lastVerifiedAt to now — and also
stamps the updatedAt bookkeeping column to now (the amendment; every
other field of the matching row and every other row are unchanged) —
appends exactly one VerificationEvent with role provider, method
provider_update, result verified, and marks the request accepted with
reviewedByUserId recorded. -/
theorem c1_accept_applies_proposed_changes (s : State) (id now : Nat)
    (req : UpdateRequest) (rid : Nat) (pc : ResourcePatch)
    (hreq : getUpdateRequest s id = some req)
    (hopen : req.status = some "new" ∨ req.status = some "in_review")
    (hrid : req.resourceId = some rid) (hrid0 : rid ≠ 0)
    (hpc : req.proposedChanges = some pc) (hne : pc ≠ emptyPatch)
    (hex : ∃ r ∈ s.resources, r.id = rid) :
    (acceptUpdateRequest s id now).1.resources =
      s.resources.map (fun r =>
        if r.id == rid then
          { id := r.id
            name := pc.name.getD r.name
            description := pc.description.getD r.description
            category := pc.category.getD r.category
            categories := pc.categories.getD r.categories
            tags := pc.tags.getD r.tags
            status := pc.status.getD r.status
            address := pc.address.getD r.address
            city := pc.city.getD r.city
            state := pc.state.getD r.state
            zip := pc.zip.getD r.zip
            lat := pc.lat.getD r.lat
            lng := pc.lng.getD r.lng
            serviceArea := pc.serviceArea.getD r.serviceArea
            phone := pc.phone.getD r.phone
            email := pc.email.getD r.email
            website := pc.website.getD r.website
            services := pc.services.getD r.services
            hours := pc.hours.getD r.hours
            eligibility := pc.eligibility.getD r.eligibility
            accessInfo := pc.accessInfo.getD r.accessInfo
            languages := pc.languages.getD r.languages
            internalNotes := pc.internalNotes.getD r.internalNotes
            publicNotes := pc.publicNotes.getD r.publicNotes
            confidenceScore := pc.confidenceScore.getD r.confidenceScore
            lastVerifiedAt := some now
            nextVerifyDueAt := pc.nextVerifyDueAt.getD r.nextVerifyDueAt
            providerId := pc.providerId.getD r.providerId
            isFavorite := pc.isFavorite.getD r.isFavorite
            notes := pc.notes.getD r.notes
            createdAt := r.createdAt
            updatedAt := some now }
        else r)
    ∧ (∃ ev, (acceptUpdateRequest s id now).1.verificationEvents =
          s.verificationEvents ++ [ev]
        ∧ ev.resourceId = rid
        ∧ ev.performedByRole = some "provider"
        ∧ ev.method = some "provider_update"
        ∧ ev.result = some "verified")
    ∧ (∃ req2, getUpdateRequest (acceptUpdateRequest s id now).1 id =
          some req2
        ∧ req2.status = some "accepted"
        ∧ req2.reviewedByUserId = some "staff") := by
  have hguard : (req.status != some "new" &&
      req.status != some "in_review") = false := by
    rcases hopen with h | h <;> rw [h] <;> rfl
  have hrid0b : (rid != 0) = true := by simpa using hrid0
  have hacc : acceptUpdateRequest s id now =
      (let s2 := (updateResource s rid
          { pc with lastVerifiedAt := some (some now) } now).1
       let s3 := (createVerificationEvent s2
          { resourceId := rid
            performedByRole := some (some "provider")
            method := some "provider_update"
            result := some "verified"
            notes := some ("Provider update accepted. Changes: " ++
              String.intercalate ", " (patchKeys pc)) } now).1
       ((updateUpdateRequestStatus s3 id "accepted" "staff" now).1,
        .ok (updateUpdateRequestStatus s3 id "accepted" "staff" now).2)) := by
    simp only [acceptUpdateRequest, hreq, hguard, hrid, hpc, hrid0b,
      Bool.false_eq_true, if_false, if_true]
  rw [hacc]
  refine ⟨?_, ⟨_, rfl, rfl, rfl, rfl, rfl⟩, ?_⟩
  · rfl
  · obtain ⟨hfound, _⟩ :=
      updateUpdateRequestStatus_found _ id "accepted" "staff" now req hreq
    exact ⟨_, hfound, rfl, rfl⟩

def c1res : Resource :=
  { id := 1, name := "Clinic", category := "HEALTH", updatedAt := some 0 }

def c1pc : ResourcePatch := { phone := some (some "555-0100") }

def c1req : UpdateRequest :=
  { id := 1, resourceId := some 1, proposedChanges := some c1pc,
    status := some "new" }

def c1state : State :=
  { resources := [c1res], updateRequests := [c1req] }

/-- C1 counterexample: "all other Resource fields unchanged" fails — the
resource's updatedAt column, whose key does not appear in the
proposedChanges map (`patchKeys c1pc = ["phone"]`), moves from 0 to the
accept time, because `updateResource` stamps `updatedAt: new Date()` on
every update. -/
theorem c1_counterexample :
    c1state.resources.map Resource.updatedAt = [some 0]
    ∧ (acceptUpdateRequest c1state 1 100).1.resources.map
        Resource.updatedAt = [some 100]
    ∧ patchKeys c1pc = ["phone"] :=
  ⟨rfl, rfl, rfl⟩

theorem c1_witness :
    (acceptUpdateRequest c1state 1 100).1.resources.map Resource.phone =
      [some "555-0100"]
    ∧ ∃ req2, getUpdateRequest (acceptUpdateRequest c1state 1 100).1 1 =
        some req2 ∧ req2.status = some "accepted"
        ∧ req2.reviewedByUserId = some "staff" :=
  ⟨rfl,
    (c1_accept_applies_proposed_changes c1state 1 100 c1req 1 c1pc rfl
      (Or.inl rfl) rfl (by decide) rfl
      (by
        intro h
        have h2 := congrArg ResourcePatch.phone h
        simp [c1pc, emptyPatch] at h2)
      ⟨c1res, by simp [c1state], rfl⟩).2.2⟩

end RV
